import Mathlib

/-!
Shallow embedding of the texture-atlas / LRU-cache / ring-buffer core of the
contour terminal emulator renderer, translated from
`src/terminal_renderer/TextureAtlas.h` and `src/crispy/ring.h`.

Machine integers are modelled as `Nat` with explicit `% 2^w` reductions at the
points where the source narrows (the `uint16_t` casts filling `TileLocation`,
the `uint32_t` additions in the slice iterator and the direct-mapping
allocator, and the `size_t` conversion inside `basic_ring::rotate`).
Floating-point subexpressions in `computeAtlasSize` (with both tile
multipliers fixed to `1.0` in the source) are exact over the `uint32` input
domain, because IEEE doubles represent every integer below `2^53` exactly and
`std::sqrt` is correctly rounded; they are therefore modelled by exact `Nat`
arithmetic (`ceilSqrt`).
-/

set_option maxRecDepth 100000

namespace Contour

/-- Modelled from the spec: `crispy::detail::nextPowerOfTwo` is not under
`src/`; the spec describes it as `nextPow2`, the least power of two that is
greater than or equal to the argument (`nextPow2(64) = 64`,
`nextPow2(80) = 128`). Fuel-based so that it reduces by `decide`/`rfl`. -/
def nextPow2Go (n : Nat) : Nat → Nat → Nat
  | 0, acc => acc
  | fuel + 1, acc => if n ≤ acc then acc else nextPow2Go n fuel (2 * acc)

/-- Least power of two that is ≥ `n` (and `1` for `n = 0`). -/
def nextPowerOfTwo (n : Nat) : Nat :=
  nextPow2Go n n 1

/-- Exact model of `ceil(sqrt(double(n)))` over the `uint32` domain: the least
`e` with `n ≤ e * e`, found by counting up (fuel-based, reduces by `decide`). -/
def ceilSqrtGo (n : Nat) : Nat → Nat → Nat
  | 0, e => e
  | fuel + 1, e => if n ≤ e * e then e else ceilSqrtGo n fuel (e + 1)

/-- Least `e` with `e * e ≥ n`. -/
def ceilSqrt (n : Nat) : Nat :=
  ceilSqrtGo n n 0

/-- `ImageSize` (terminal/primitives.h): width and height in pixels. -/
structure ImageSize where
  width : Nat
  height : Nat
deriving DecidableEq

/-- `terminal::renderer::atlas::Format`: `Red = 1`, `RGB = 3`, `RGBA = 4`. -/
inductive Format where
  | red
  | rgb
  | rgba
deriving DecidableEq

/-- `element_count`: the enum value doubles as the per-pixel byte count. -/
def element_count : Format → Nat
  | .red => 1
  | .rgb => 3
  | .rgba => 4

/-- `TileLocation`: two 16-bit offsets into the atlas texture, in pixels. -/
structure TileLocation where
  x : Nat
  y : Nat
deriving DecidableEq

instance : Inhabited TileLocation := ⟨⟨0, 0⟩⟩

/-- `AtlasProperties`: construction parameters of a texture atlas. -/
structure AtlasProperties where
  format : Format
  tileSize : ImageSize
  tileCount : Nat
  directMappingCount : Nat
deriving DecidableEq

/-- `TileAttributes<Metadata>`: location of a tile plus its payload. -/
structure TileAttributes (M : Type) where
  location : TileLocation
  bitmapSize : ImageSize
  metadata : M
deriving DecidableEq

instance [Inhabited M] : Inhabited (TileAttributes M) :=
  ⟨⟨default, ⟨0, 0⟩, default⟩⟩

/-- `TextureAtlas<M>::TileCreateData`: what a build function yields on miss. -/
structure TileCreateData (M : Type) where
  bitmap : List Nat
  bitmapFormat : Format
  bitmapSize : ImageSize
  metadata : M
deriving DecidableEq

/-- Commands the atlas issues to its `AtlasBackend`. -/
inductive AtlasCommand (M : Type) where
  | configureAtlas (size : ImageSize) (props : AtlasProperties)
  | uploadTile (location : TileLocation) (bitmapSize : ImageSize)
      (bitmapFormat : Format) (bitmap : List Nat)
deriving DecidableEq

/-- Failure kinds named by the spec's error-handling section. -/
inductive AtlasError where
  | indexOutOfRange
  | geometryChangeUnsupported
  | invalidGeometry
deriving DecidableEq

/-- Modelled from the spec: one entry of `crispy::StrongLRUHashtable` (the
header is not under `src/`); spec section 3: `{hash, entryIndex, attrs, ...}`.
The 128-bit `StrongHash` is modelled as a `Nat` key with bitwise equality. -/
structure LRUEntry (V : Type) where
  hash : Nat
  entryIndex : Nat
  value : V
deriving DecidableEq

/-- Modelled from the spec: `crispy::StrongLRUHashtable` (not under `src/`),
spec section 4.2: a bounded LRU mapping from strong hashes to values.
`entries` is kept in LRU order, most recently used first; the bucket array is
an O(1) lookup device with no observable semantics of its own, so lookups are
modelled directly on the entry list. -/
structure StrongLRUHashtable (V : Type) where
  bucketCount : Nat
  capacity : Nat
  name : String
  entries : List (LRUEntry V)
deriving DecidableEq

namespace StrongLRUHashtable

/-- Modelled from the spec: `StrongLRUHashtable::create(bucketCount, capacity,
name)` yields an empty table with the given capacity. -/
def create (V : Type) (bucketCount capacity : Nat) (name : String) :
    StrongLRUHashtable V :=
  ⟨bucketCount, capacity, name, []⟩

/-- Modelled from the spec: `contains(hash)` — lookup without touching LRU
order. -/
def contains (t : StrongLRUHashtable V) (h : Nat) : Bool :=
  t.entries.any fun e => e.hash == h

/-- Number of live entries. -/
def liveCount (t : StrongLRUHashtable V) : Nat :=
  t.entries.length

/-- Modelled from the spec: promote the entry with the given hash to the MRU
end, leaving the relative order of the others unchanged. -/
def promote (t : StrongLRUHashtable V) (h : Nat) : StrongLRUHashtable V :=
  match t.entries.find? (fun e => e.hash == h) with
  | some e => { t with entries := e :: t.entries.eraseP (fun e => e.hash == h) }
  | none => t

/-- Modelled from the spec: `entryIndex` values are assigned from a free list
over `[0, capacity)`; deterministically pick the smallest unused index. -/
def freshEntryIndex (t : StrongLRUHashtable V) : Nat :=
  (((List.range t.capacity).filter
    (fun i => t.entries.all fun e => e.entryIndex ≠ i)).headD 0)

/-- Modelled from the spec: `try_get(hash)` — on hit promotes to MRU and
returns the value, on miss returns none. -/
def try_get (t : StrongLRUHashtable V) (h : Nat) :
    Option V × StrongLRUHashtable V :=
  match t.entries.find? (fun e => e.hash == h) with
  | some e => (some e.value, t.promote h)
  | none => (none, t)

/-- Modelled from the spec: `get_or_try_emplace(hash, build_fn)` — on hit
promote and return; on miss invoke `build_fn` with a free `entryIndex` (the
LRU tail's index if at capacity); if it declines, no entry is created and no
slot is consumed. The build function's side outputs (backend commands) are
threaded through as a list. -/
def get_or_try_emplace (t : StrongLRUHashtable V) (h : Nat)
    (f : Nat → Option V × List C) :
    Option V × StrongLRUHashtable V × List C :=
  match t.entries.find? (fun e => e.hash == h) with
  | some e => (some e.value, t.promote h, [])
  | none =>
    if t.entries.length < t.capacity then
      let idx := t.freshEntryIndex
      match f idx with
      | (none, cs) => (none, t, cs)
      | (some v, cs) => (some v, { t with entries := ⟨h, idx, v⟩ :: t.entries }, cs)
    else
      let idx := ((t.entries.getLast?).map (fun e => e.entryIndex)).getD 0
      match f idx with
      | (none, cs) => (none, t, cs)
      | (some v, cs) =>
        (some v, { t with entries := ⟨h, idx, v⟩ :: t.entries.dropLast }, cs)

/-- Modelled from the spec: `remove(hash)` drops the entry and frees its
index. -/
def remove (t : StrongLRUHashtable V) (h : Nat) : StrongLRUHashtable V :=
  { t with entries := t.entries.eraseP (fun e => e.hash == h) }

/-- Modelled from the spec: `clear()` drops all entries and frees all
indices. -/
def clear (t : StrongLRUHashtable V) : StrongLRUHashtable V :=
  { t with entries := [] }

end StrongLRUHashtable

/-- `computeAtlasSize` (TextureAtlas.h): `totalTileCount` is the next power of
two of the `uint32` sum `tileCount + directMappingCount`; the square edge is
`ceil(sqrt(totalTileCount))`; each axis is the next power of two of
`edge * tileSize` (both tile multipliers are `1.0` in the source; the
`static_cast<uint32_t>` narrowing is the `% 2^32`). -/
def computeAtlasSize (p : AtlasProperties) : ImageSize :=
  let totalTileCount := nextPowerOfTwo ((p.tileCount + p.directMappingCount) % 2 ^ 32)
  let squareEdgeCount := ceilSqrt totalTileCount
  { width := nextPowerOfTwo ((squareEdgeCount * p.tileSize.width) % 2 ^ 32)
    height := nextPowerOfTwo ((squareEdgeCount * p.tileSize.height) % 2 ^ 32) }

/-- `TextureAtlas<Metadata>`: properties, derived geometry, the backing LRU
table, the precomputed tile-location table and the direct-mapped slots. -/
structure TextureAtlas (M : Type) where
  atlasProperties : AtlasProperties
  atlasSize : ImageSize
  tilesInX : Nat
  tilesInY : Nat
  tileCache : StrongLRUHashtable (TileAttributes M)
  tileLocations : List TileLocation
  directMapping : List (TileAttributes M)
deriving DecidableEq

/-- The `Require` guard of the `TextureAtlas` constructor:
`_tileLocations.size() >= directMappingCount + tileCount`. (`crispy/assert.h`
is not under `src/`; per the spec a failed `Require` surfaces as a
precondition violation, so constructed atlases are those where this check
holds.) -/
def ctorRequire (p : AtlasProperties) : Bool :=
  let asize := computeAtlasSize p
  let tx := asize.width / p.tileSize.width
  let ty := asize.height / p.tileSize.height
  decide (p.directMappingCount + p.tileCount ≤ tx * ty)

/-- The `TextureAtlas` constructor (TextureAtlas.h lines 472-527):
`tilesInX = floor(atlasWidth / tileSize.w)`, `tilesInY` likewise; the LRU
table is created with `StrongHashtableSize{tilesInX * tilesInY}` and
`LRUCapacity{tilesInX * tilesInY}`; `tileLocations[i]` is filled with
`((i mod tilesInX) * tileSize.w, (i div tilesInX) * tileSize.h)`, each
coordinate narrowed by the source's `static_cast<uint16_t>` (the `% 2^16`);
`directMapping` is resized to `directMappingCount` default entries. -/
def mkTextureAtlas (M : Type) [Inhabited M] (p : AtlasProperties) :
    TextureAtlas M :=
  let asize := computeAtlasSize p
  let tx := asize.width / p.tileSize.width
  let ty := asize.height / p.tileSize.height
  { atlasProperties := p
    atlasSize := asize
    tilesInX := tx
    tilesInY := ty
    tileCache := StrongLRUHashtable.create (TileAttributes M) (tx * ty) (tx * ty)
      "LRU cache for texture atlas"
    tileLocations := (List.range (tx * ty)).map fun i =>
      ⟨(i % tx * p.tileSize.width) % 2 ^ 16, (i / tx * p.tileSize.height) % 2 ^ 16⟩
    directMapping := List.replicate p.directMappingCount default }

namespace TextureAtlas

/-- `capacity()`: `_tileLocations.size()`. -/
def capacity (a : TextureAtlas M) : Nat :=
  a.tileLocations.length

/-- `contains(id)`: delegates to the LRU table. -/
def contains (a : TextureAtlas M) (h : Nat) : Bool :=
  a.tileCache.contains h

/-- `tileLocation(index)`: `return _tileLocations[index];` — an unchecked
vector access (the out-of-range read, undefined in the source, is modelled as
the list default). -/
def tileLocation (a : TextureAtlas M) (index : Nat) : TileLocation :=
  a.tileLocations.getD index default

/-- `tileLocation` wrapped in the error monad of the other accessors: the
source performs no bounds check here, so this always succeeds. -/
def tileLocationE (a : TextureAtlas M) (index : Nat) :
    Except AtlasError TileLocation :=
  .ok (a.tileLocation index)

/-- `constructTile(fn, entryIndex)` (TextureAtlas.h lines 540-567): computes
`tileIndex = entryIndex + directMappingCount`, reads the precomputed location,
invokes the caller's build function; on decline returns nullopt with no
backend command; otherwise issues one `uploadTile` and returns the
attributes. -/
def constructTile (a : TextureAtlas M)
    (f : TileLocation → Nat → Option (TileCreateData M)) (entryIndex : Nat) :
    Option (TileAttributes M) × List (AtlasCommand M) :=
  let tileIndex := entryIndex + a.atlasProperties.directMappingCount
  let loc := a.tileLocations.getD tileIndex default
  match f loc entryIndex with
  | none => (none, [])
  | some d =>
    (some ⟨loc, d.bitmapSize, d.metadata⟩,
     [.uploadTile loc d.bitmapSize d.bitmapFormat d.bitmap])

/-- `get_or_try_emplace(key, fn)` (TextureAtlas.h lines 586-595): delegates to
the LRU table with `constructTile` wrapped around the caller's build
function. Returns the lookup result, the new atlas state and the backend
commands issued. -/
def get_or_try_emplace (a : TextureAtlas M) (key : Nat)
    (f : TileLocation → Nat → Option (TileCreateData M)) :
    Option (TileAttributes M) × TextureAtlas M × List (AtlasCommand M) :=
  match a.tileCache.get_or_try_emplace key (fun ei => a.constructTile f ei) with
  | (r, t, cs) => (r, { a with tileCache := t }, cs)

/-- `try_get(key)`: delegates to the LRU table (promotes on hit). -/
def try_get (a : TextureAtlas M) (key : Nat) :
    Option (TileAttributes M) × TextureAtlas M :=
  match a.tileCache.try_get key with
  | (r, t) => (r, { a with tileCache := t })

/-- `remove(key)`: delegates to the LRU table. -/
def remove (a : TextureAtlas M) (key : Nat) : TextureAtlas M :=
  { a with tileCache := a.tileCache.remove key }

/-- `reset(atlasProperties)` (TextureAtlas.h lines 625-630): the whole body is
`_atlasProperties = atlasProperties; _tileCache->clear();` — it stores the new
properties without any geometry validation, clears the LRU table, touches
neither `_tileLocations` nor `_directMapping`, and issues no backend
command. -/
def reset (a : TextureAtlas M) (p : AtlasProperties) :
    Except AtlasError (TextureAtlas M) × List (AtlasCommand M) :=
  (.ok { a with atlasProperties := p, tileCache := a.tileCache.clear }, [])

/-- `setDirectMapping(index, tileCreateData)` (TextureAtlas.h lines 639-659):
`Require(index < _directMapping.size())`, then uploads to
`_tileLocations[index]` and overwrites the direct-mapped slot. -/
def setDirectMapping (a : TextureAtlas M) (index : Nat) (d : TileCreateData M) :
    Except AtlasError (TextureAtlas M × List (AtlasCommand M)) :=
  if index < a.directMapping.length then
    let loc := a.tileLocations.getD index default
    .ok ({ a with directMapping :=
            a.directMapping.set index ⟨loc, d.bitmapSize, d.metadata⟩ },
         [.uploadTile loc d.bitmapSize d.bitmapFormat d.bitmap])
  else
    .error .indexOutOfRange

/-- `directMapped(index)` (TextureAtlas.h lines 632-637):
`Require(index < _directMapping.size())`, then returns the slot. -/
def directMapped (a : TextureAtlas M) (index : Nat) :
    Except AtlasError (TileAttributes M) :=
  if h : index < a.directMapping.length then
    .ok (a.directMapping.get ⟨index, h⟩)
  else
    .error .indexOutOfRange

end TextureAtlas

/-- One mutating operation of the modelled `TextureAtlas` API; used to state
lifetime invariants over arbitrary operation sequences. -/
inductive AtlasOp (M : Type) where
  | getOrTryEmplace (key : Nat) (f : TileLocation → Nat → Option (TileCreateData M))
  | tryGet (key : Nat)
  | removeKey (key : Nat)
  | resetProps (p : AtlasProperties)
  | setDirect (index : Nat) (d : TileCreateData M)

/-- Apply one operation, keeping the state unchanged on a failed precondition
(the source aborts there, so no later state exists to observe). -/
def applyOp (a : TextureAtlas M) : AtlasOp M → TextureAtlas M
  | .getOrTryEmplace key f => (a.get_or_try_emplace key f).2.1
  | .tryGet key => (a.try_get key).2
  | .removeKey key => a.remove key
  | .resetProps p =>
    match a.reset p with
    | (.ok a2, _) => a2
    | (.error _, _) => a
  | .setDirect index d =>
    match a.setDirectMapping index d with
    | .ok (a2, _) => a2
    | .error _ => a

/-- Apply a sequence of operations left to right. -/
def applyOps (a : TextureAtlas M) (ops : List (AtlasOp M)) : TextureAtlas M :=
  ops.foldl applyOp a

/-- `crispy::basic_ring<T>` (ring.h): fixed storage plus a movable origin
`_zero`. -/
structure basic_ring (α : Type) where
  storage : List α
  zero : Nat
deriving DecidableEq

namespace basic_ring

/-- `size()`: the storage size. -/
def size (r : basic_ring α) : Nat :=
  r.storage.length

/-- `rotate(int count)` (ring.h line 84):
`_zero = size_t(offset_type(_zero + size()) - count) % size();`.
The subtraction happens in the signed 64-bit `offset_type`; the conversion to
`size_t` wraps modulo `2^64` (this wrap is observable whenever
`count > _zero + size()`), and the final `%` is the unsigned remainder. -/
def rotate (r : basic_ring α) (count : Int) : basic_ring α :=
  { r with zero := ((((r.zero : Int) + (r.size : Int) - count) % (2 ^ 64 : Int)).toNat) % r.size }

/-- `operator[](offset_type i)` for a non-negative logical index:
`_storage[size_t(_zero + size() + i) % size()]`. -/
def atIndex [Inhabited α] (r : basic_ring α) (i : Nat) : α :=
  r.storage.getD ((r.zero + r.size + i) % r.size) default

end basic_ring

/-- `TileSliceIndex` (TextureAtlas.h): one slice of a wide bitmap. -/
structure TileSliceIndex where
  sliceIndex : Nat
  beginX : Nat
  endX : Nat
deriving DecidableEq

/-- `sliced(...).begin()` (TextureAtlas.h lines 423-431): slice `0`, beginning
at `offsetX`, ending at `tileWidth`. -/
def sliceBegin (tileWidth offsetX : Nat) : TileSliceIndex :=
  ⟨0, offsetX, tileWidth % 2 ^ 32⟩

/-- The iterator's `operator++` (TextureAtlas.h lines 408-414):
`sliceIndex++; beginX = endX; endX += tileWidth;` with `endX` a `uint32`. -/
def sliceNext (tileWidth : Nat) (v : TileSliceIndex) : TileSliceIndex :=
  ⟨v.sliceIndex + 1, v.endX, (v.endX + tileWidth) % 2 ^ 32⟩

/-- The iterator state after `n` increments. -/
def sliceIter (tileWidth : Nat) (v : TileSliceIndex) : Nat → TileSliceIndex
  | 0 => v
  | n + 1 => sliceIter tileWidth (sliceNext tileWidth v) n

/-- `offsetForEndX()` (TextureAtlas.h lines 417-421): the end sentinel's
`beginX`, namely `bitmapWidth + bitmapWidth % tileWidth` in `uint32`
arithmetic. -/
def offsetForEndX (tileWidth bitmapWidth : Nat) : Nat :=
  (bitmapWidth + bitmapWidth % tileWidth) % 2 ^ 32

/-- The `begin() != end()` loop over `sliced(tileWidth, offsetX, bitmapSize)`
terminates precisely when some iterate's `beginX` reaches the end sentinel
(iterator equality compares `beginX` only, TextureAtlas.h lines 400-407). -/
def sliceTerminates (tileWidth offsetX bitmapWidth : Nat) : Prop :=
  ∃ n, (sliceIter tileWidth (sliceBegin tileWidth offsetX) n).beginX =
    offsetForEndX tileWidth bitmapWidth

instance (tw ox bw : Nat) (n : Nat) :
    Decidable ((sliceIter tw (sliceBegin tw ox) n).beginX = offsetForEndX tw bw) :=
  inferInstance

/-- `DirectMapping<Metadata>` (TextureAtlas.h lines 336-352): a contiguous
range of direct-mapped tile indices; `count == 0` converts to `false`. -/
structure DirectMapping where
  baseIndex : Nat
  count : Nat
deriving DecidableEq

/-- `DirectMapping::operator bool`: non-empty test. -/
def DirectMapping.toBool (m : DirectMapping) : Bool :=
  m.count != 0

/-- `DirectMappingAllocator<Metadata>` (TextureAtlas.h lines 354-376). -/
structure DirectMappingAllocator where
  currentlyAllocatedCount : Nat
  enabled : Bool
deriving DecidableEq

/-- `DirectMappingAllocator::allocate(count)`: disabled allocators return an
empty mapping and keep their state; otherwise the mapping starts at the
current count, which then advances by `count` in `uint32` arithmetic. -/
def DirectMappingAllocator.allocate (a : DirectMappingAllocator) (count : Nat) :
    DirectMapping × DirectMappingAllocator :=
  if a.enabled then
    (⟨a.currentlyAllocatedCount, count⟩,
     { a with currentlyAllocatedCount := (a.currentlyAllocatedCount + count) % 2 ^ 32 })
  else
    (⟨0, 0⟩, a)

/-- Run a sequence of `allocate` calls, collecting the returned mappings. -/
def allocateAll (a : DirectMappingAllocator) : List Nat →
    List DirectMapping × DirectMappingAllocator
  | [] => ([], a)
  | c :: cs =>
    let (m, a2) := a.allocate c
    let (ms, a3) := allocateAll a2 cs
    (m :: ms, a3)

/-- Scenario-6 properties of the spec: tile size 10x20, 60 tiles, 4
direct-mapped slots. -/
def props6040 : AtlasProperties :=
  ⟨.rgba, ⟨10, 20⟩, 60, 4⟩

/-- Scenario-1 properties of the spec: tile size 8x16, 4 tiles, no direct
mapping. -/
def props8164 : AtlasProperties :=
  ⟨.rgba, ⟨8, 16⟩, 4, 0⟩

/-- Properties with a tile so wide that a tile-location X offset overflows the
16-bit `TileLocation` field: tile size 40000x20, 4 tiles. -/
def propsWide : AtlasProperties :=
  ⟨.red, ⟨40000, 20⟩, 4, 0⟩

/-- A small concretely constructed atlas (from `props8164`) with trivial
metadata, used to instantiate theorems at concrete inputs. -/
def atlasU : TextureAtlas Unit :=
  mkTextureAtlas Unit props8164

/-- A concretely constructed atlas with the direct-mapped zone populated
geometry-wise (from `props6040`). -/
def atlasD : TextureAtlas Unit :=
  mkTextureAtlas Unit props6040

/-- Reading index `i < n` from `(List.range n).map f` yields `f i`. -/
theorem getD_range_map {α : Type} (f : Nat → α) (n i : Nat) (d : α) (h : i < n) :
    ((List.range n).map f).getD i d = f i := by
  have hlen : i < ((List.range n).map f).length := by
    simpa [List.length_map, List.length_range] using h
  rw [List.getD_eq_getElem _ _ hlen, List.getElem_map, List.getElem_range]

/-- Claim C1 (amended): the `TextureAtlas` constructor creates its backing LRU
table with capacity equal to the full geometric tile capacity
`tilesInX * tilesInY`, with no subtraction of `directMappingCount` (source
passes `LRUCapacity{_tilesInX * _tilesInY}`). -/
theorem tileCache_capacity_eq (M : Type) [Inhabited M] (p : AtlasProperties)
    (hreq : ctorRequire p = true) :
    (mkTextureAtlas M p).tileCache.capacity =
      (mkTextureAtlas M p).tilesInX * (mkTextureAtlas M p).tilesInY := rfl

/-- Witness for C1 at the spec's scenario-6 properties. -/
theorem tileCache_capacity_eq_witness :
    ctorRequire props6040 = true ∧
    (mkTextureAtlas Unit props6040).tileCache.capacity =
      (mkTextureAtlas Unit props6040).tilesInX * (mkTextureAtlas Unit props6040).tilesInY :=
  ⟨by decide, tileCache_capacity_eq Unit props6040 (by decide)⟩

/-- Counterexample for C1 as stated: with the scenario-6 properties the table
capacity is `144 = 12 * 12`, not `12 * 12 - 4 = 140`. -/
theorem tileCache_capacity_counterexample :
    ctorRequire props6040 = true ∧
    (mkTextureAtlas Unit props6040).tileCache.capacity ≠
      (mkTextureAtlas Unit props6040).tilesInX * (mkTextureAtlas Unit props6040).tilesInY
        - props6040.directMappingCount := by
  exact ⟨by decide, by decide⟩

/-- Claim C2: for a key absent from the cache and a declining build function,
`get_or_try_emplace` returns none, leaves the atlas (entry count and LRU
order included) unchanged, issues no backend command, and the key is still
absent afterwards. -/
theorem get_or_try_emplace_declined (M : Type) (a : TextureAtlas M) (h : Nat)
    (f : TileLocation → Nat → Option (TileCreateData M))
    (habs : a.contains h = false) (hf : ∀ loc ei, f loc ei = none) :
    a.get_or_try_emplace h f = (none, a, []) ∧
    (a.get_or_try_emplace h f).2.1.contains h = false ∧
    (a.get_or_try_emplace h f).2.1.tileCache.liveCount = a.tileCache.liveCount := by
  have hfind : a.tileCache.entries.find? (fun e => e.hash == h) = none := by
    rw [List.find?_eq_none]
    intro x hx
    simp only [TextureAtlas.contains, StrongLRUHashtable.contains,
      List.any_eq_false] at habs
    exact fun hpx => habs x hx hpx
  have key : a.tileCache.get_or_try_emplace h (fun ei => a.constructTile f ei) =
      (none, a.tileCache, []) := by
    unfold StrongLRUHashtable.get_or_try_emplace
    rw [hfind]
    simp only [TextureAtlas.constructTile, hf]
    split <;> rfl
  have main : a.get_or_try_emplace h f = (none, a, []) := by
    unfold TextureAtlas.get_or_try_emplace
    rw [key]
  exact ⟨main, by rw [main]; exact habs, by rw [main]⟩

/-- Witness for C2 on a concretely constructed empty atlas. -/
theorem get_or_try_emplace_declined_witness :
    atlasU.contains 7 = false ∧
    atlasU.get_or_try_emplace 7 (fun _ _ => none) = (none, atlasU, []) :=
  ⟨by decide,
   (get_or_try_emplace_declined Unit atlasU 7 (fun _ _ => none) (by decide)
      (fun _ _ => rfl)).1⟩

/-- Claim C3 (amended): `tileLocations[i]` is
`((i mod tilesInX) * tileSize.w, (i div tilesInX) * tileSize.h)` with each
coordinate narrowed by the 16-bit `TileLocation` field (`mod 2^16`); the
spec's concrete scenario-6 instance (atlas 128x256, 12x12 tiles, capacity
144, `tileLocations[13] = (10, 20)`) holds exactly. -/
theorem tileLocations_formula (M : Type) [Inhabited M] (p : AtlasProperties)
    (i : Nat) (hreq : ctorRequire p = true)
    (hi : i < (mkTextureAtlas M p).capacity) :
    ((mkTextureAtlas M p).tileLocation i =
      ⟨(i % (mkTextureAtlas M p).tilesInX * p.tileSize.width) % 2 ^ 16,
       (i / (mkTextureAtlas M p).tilesInX * p.tileSize.height) % 2 ^ 16⟩) ∧
    (mkTextureAtlas Unit props6040).atlasSize = ⟨128, 256⟩ ∧
    (mkTextureAtlas Unit props6040).tilesInX = 12 ∧
    (mkTextureAtlas Unit props6040).tilesInY = 12 ∧
    (mkTextureAtlas Unit props6040).capacity = 144 ∧
    (mkTextureAtlas Unit props6040).tileLocation 13 = ⟨10, 20⟩ := by
  refine ⟨?_, by decide, by decide, by decide, by decide, by decide⟩
  have hlen : i < ((mkTextureAtlas M p).tilesInX * (mkTextureAtlas M p).tilesInY) := by
    simpa [TextureAtlas.capacity, mkTextureAtlas, List.length_map,
      List.length_range] using hi
  exact getD_range_map _ _ i _ hlen

/-- Witness for C3 at the scenario-6 atlas, index 13. -/
theorem tileLocations_formula_witness :
    ctorRequire props6040 = true ∧
    13 < (mkTextureAtlas Unit props6040).capacity ∧
    (mkTextureAtlas Unit props6040).tileLocation 13 =
      ⟨(13 % (mkTextureAtlas Unit props6040).tilesInX * props6040.tileSize.width) % 2 ^ 16,
       (13 / (mkTextureAtlas Unit props6040).tilesInX * props6040.tileSize.height) % 2 ^ 16⟩ :=
  ⟨by decide, by decide,
   (tileLocations_formula Unit props6040 13 (by decide) (by decide)).1⟩

/-- Counterexample for C3 as stated: with 40000-pixel-wide tiles the X offset
of tile 2 is `80000`, which does not fit the 16-bit location field; the stored
value is `80000 mod 2^16 = 14464`. -/
theorem tileLocations_formula_counterexample :
    ctorRequire propsWide = true ∧
    2 < (mkTextureAtlas Unit propsWide).capacity ∧
    2 % (mkTextureAtlas Unit propsWide).tilesInX * propsWide.tileSize.width = 80000 ∧
    ((mkTextureAtlas Unit propsWide).tileLocation 2).x = 14464 ∧
    (mkTextureAtlas Unit propsWide).tileLocation 2 ≠
      ⟨2 % (mkTextureAtlas Unit propsWide).tilesInX * propsWide.tileSize.width,
       2 / (mkTextureAtlas Unit propsWide).tilesInX * propsWide.tileSize.height⟩ := by
  exact ⟨by decide, by decide, by decide, by decide, by decide⟩

/-- Claim C4 (amended): `reset(properties)` clears the LRU table, keeps
`tileLocations`, the direct mapping and the atlas size, stores the new
properties, issues no backend command (in particular never reissues
`configureAtlas`), and always succeeds — the source performs no geometry
validation and has no `GeometryChangeUnsupported` failure path. -/
theorem reset_clears_and_never_fails (M : Type) (a : TextureAtlas M)
    (p : AtlasProperties) :
    ∃ a2, a.reset p = (.ok a2, ([] : List (AtlasCommand M))) ∧
      a2.tileCache.entries = [] ∧
      a2.tileLocations = a.tileLocations ∧
      a2.directMapping = a.directMapping ∧
      a2.atlasSize = a.atlasSize ∧
      a2.atlasProperties = p :=
  ⟨_, rfl, rfl, rfl, rfl, rfl, rfl⟩

/-- Counterexample for C4 as stated: resetting with properties whose derived
geometry differs from the construction-time geometry succeeds instead of
failing. -/
theorem reset_geometry_counterexample :
    computeAtlasSize props6040 ≠ computeAtlasSize props8164 ∧
    ((atlasU.reset props6040).1.isOk = true) ∧
    (atlasU.reset props6040).2 = [] := by
  exact ⟨by decide, rfl, rfl⟩

/-- Every modelled atlas operation leaves `tileLocations` unchanged. -/
theorem applyOp_tileLocations (M : Type) (a : TextureAtlas M) (op : AtlasOp M) :
    (applyOp a op).tileLocations = a.tileLocations := by
  cases op with
  | getOrTryEmplace key f =>
    show (a.get_or_try_emplace key f).2.1.tileLocations = a.tileLocations
    unfold TextureAtlas.get_or_try_emplace
    rcases hres : a.tileCache.get_or_try_emplace key (fun ei => a.constructTile f ei)
      with ⟨r, t, cs⟩
    rfl
  | tryGet key =>
    show (a.try_get key).2.tileLocations = a.tileLocations
    unfold TextureAtlas.try_get
    rcases hres : a.tileCache.try_get key with ⟨r, t⟩
    rfl
  | removeKey key => rfl
  | resetProps p => rfl
  | setDirect index d =>
    show (match a.setDirectMapping index d with
      | .ok (a2, _) => a2
      | .error _ => a).tileLocations = a.tileLocations
    unfold TextureAtlas.setDirectMapping
    by_cases hidx : index < a.directMapping.length
    · rw [if_pos hidx]
    · rw [if_neg hidx]

/-- Operation sequences leave `tileLocations` unchanged. -/
theorem applyOps_tileLocations (M : Type) (a : TextureAtlas M)
    (ops : List (AtlasOp M)) :
    (applyOps a ops).tileLocations = a.tileLocations := by
  induction ops generalizing a with
  | nil => rfl
  | cons op ops ih =>
    show (applyOps (applyOp a op) ops).tileLocations = a.tileLocations
    rw [ih, applyOp_tileLocations]

/-- A tile coordinate `q * s` (narrowed to 16 bits) stays within
`axis - s` pixels when `q < t` and `t` is the per-axis tile count
`axis / s`. -/
theorem tile_coord_bound (q t s axis : Nat) (hq : q < t) (ht : t = axis / s) :
    (q * s) % 2 ^ 16 ≤ axis - s := by
  have h1 : (q * s) % 2 ^ 16 ≤ q * s := Nat.mod_le _ _
  have h2 : q * s + s ≤ t * s := by
    calc q * s + s = (q + 1) * s := by ring
    _ ≤ t * s := Nat.mul_le_mul_right s (by omega)
  have h3 : t * s ≤ axis := by rw [ht]; exact Nat.div_mul_le_self _ _
  omega

/-- Claim C5 (amended): for every constructed atlas and `i < capacity`,
`tileLocations[i]` is unchanged by any sequence of atlas operations, and
satisfies the non-strict bounds `x ≤ atlasWidth - tileSize.w` and
`y ≤ atlasHeight - tileSize.h` (the last tile column and row may end exactly
at the atlas edge, so the strict bounds of the claim fail there). -/
theorem tileLocations_stable_and_bounded (M : Type) [Inhabited M]
    (p : AtlasProperties) (i : Nat) (hreq : ctorRequire p = true)
    (hi : i < (mkTextureAtlas M p).capacity) :
    (∀ ops : List (AtlasOp M),
      (applyOps (mkTextureAtlas M p) ops).tileLocations =
        (mkTextureAtlas M p).tileLocations) ∧
    ((mkTextureAtlas M p).tileLocation i).x ≤
      (mkTextureAtlas M p).atlasSize.width - p.tileSize.width ∧
    ((mkTextureAtlas M p).tileLocation i).y ≤
      (mkTextureAtlas M p).atlasSize.height - p.tileSize.height := by
  have hlen : i < ((mkTextureAtlas M p).tilesInX * (mkTextureAtlas M p).tilesInY) := by
    simpa [TextureAtlas.capacity, mkTextureAtlas, List.length_map,
      List.length_range] using hi
  have htxpos : 0 < (mkTextureAtlas M p).tilesInX := by
    rcases Nat.eq_zero_or_pos (mkTextureAtlas M p).tilesInX with h0 | h0
    · rw [h0] at hlen; omega
    · exact h0
  have hloc2 : (mkTextureAtlas M p).tileLocation i =
      ⟨(i % (mkTextureAtlas M p).tilesInX * p.tileSize.width) % 2 ^ 16,
       (i / (mkTextureAtlas M p).tilesInX * p.tileSize.height) % 2 ^ 16⟩ :=
    getD_range_map _ _ i _ hlen
  refine ⟨fun ops => applyOps_tileLocations M _ ops, ?_, ?_⟩
  · rw [hloc2]
    exact tile_coord_bound _ _ _ _ (Nat.mod_lt i htxpos) rfl
  · rw [hloc2]
    exact tile_coord_bound _ _ _ _ (Nat.div_lt_of_lt_mul hlen) rfl

/-- Witness for C5 at the spec's scenario-6 properties, index 13, with a
non-trivial operation sequence. -/
theorem tileLocations_stable_and_bounded_witness :
    ctorRequire props6040 = true ∧
    13 < (mkTextureAtlas Unit props6040).capacity ∧
    (applyOps (mkTextureAtlas Unit props6040)
        [AtlasOp.removeKey 5, AtlasOp.tryGet 9]).tileLocations =
      (mkTextureAtlas Unit props6040).tileLocations ∧
    ((mkTextureAtlas Unit props6040).tileLocation 13).x ≤
      (mkTextureAtlas Unit props6040).atlasSize.width - props6040.tileSize.width ∧
    ((mkTextureAtlas Unit props6040).tileLocation 13).y ≤
      (mkTextureAtlas Unit props6040).atlasSize.height - props6040.tileSize.height :=
  ⟨by decide, by decide,
   (tileLocations_stable_and_bounded Unit props6040 13 (by decide) (by decide)).1
     [AtlasOp.removeKey 5, AtlasOp.tryGet 9],
   (tileLocations_stable_and_bounded Unit props6040 13 (by decide) (by decide)).2.1,
   (tileLocations_stable_and_bounded Unit props6040 13 (by decide) (by decide)).2.2⟩

/-- Counterexample for C5 as stated: in the 16x32 atlas with 8x16 tiles, tile
1 sits at x = 8 = atlasWidth - tileSize.w, violating the strict bound. -/
theorem tileLocations_strict_bound_counterexample :
    1 < atlasU.capacity ∧
    ¬ ((atlasU.tileLocation 1).x <
        atlasU.atlasSize.width - props8164.tileSize.width) := by
  exact ⟨by decide, by decide⟩

/-- When `_zero + size() - count` does not wrap through `size_t`, the new
origin after `rotate(count)` is its ordinary residue modulo the size. -/
theorem rotate_zero_int (α : Type) (r : basic_ring α) (count : Int)
    (h0 : 0 ≤ (r.zero : Int) + r.size - count)
    (h1 : (r.zero : Int) + r.size - count < 2 ^ 64) :
    ((r.rotate count).zero : Int) =
      ((r.zero : Int) + r.size - count) % (r.size : Int) := by
  show (((((r.zero : Int) + (r.size : Int) - count) % (2 ^ 64 : Int)).toNat % r.size : Nat) : Int) = _
  rw [Int.emod_eq_of_lt h0 h1, Int.natCast_mod, Int.toNat_of_nonneg h0]

/-- `rotate` never touches the storage. -/
theorem rotate_storage (α : Type) (r : basic_ring α) (count : Int) :
    (r.rotate count).storage = r.storage := rfl

/-- Rings with identical storage and origin are identical. -/
theorem ring_ext (α : Type) (r1 r2 : basic_ring α)
    (hs : r1.storage = r2.storage) (hz : r1.zero = r2.zero) : r1 = r2 := by
  cases r1
  cases r2
  cases hs
  cases hz
  rfl

/-- Residues modulo the ring size that differ by a multiple-free shift of
`2 * size` agree; used to cancel a rotation against its inverse. -/
theorem emod_shift_cancel (N z a : Int) (hN : 0 < N) (hz0 : 0 ≤ z) (hz : z < N) :
    ((z + N - a) % N + N + a) % N = z := by
  have e1 : ((z + N - a) % N + N + a) % N = ((z + N - a) + N + a) % N := by
    conv_lhs => rw [Int.add_assoc, Int.add_emod, Int.emod_emod_of_dvd _ dvd_rfl,
      ← Int.add_emod, ← Int.add_assoc]
  rw [e1]
  have e2 : (z + N - a) + N + a = z + N * 2 := by ring
  rw [e2, Int.add_mul_emod_self_left, Int.emod_eq_of_lt hz0 hz]

/-- Claim C6 (amended): for every ring of size `N ≥ 1` (with `N ≤ 2^31`, since
rotation counts are 32-bit `int`s in the source) and every `k` with
`|k| ≤ N`, `rotate(+k)` followed by `rotate(-k)` restores the original ring
state — origin and logical order alike. For `k > zero + N` the conversion of
the negative intermediate to `size_t` wraps modulo `2^64` and the round trip
does not return to the start (see the counterexample). -/
theorem rotate_rotate_cancel (α : Type) (r : basic_ring α) (k : Int)
    (hpos : 1 ≤ r.size) (hz : r.zero < r.size) (hk : k.natAbs ≤ r.size)
    (hsize : r.size ≤ 2 ^ 31) :
    (r.rotate k).rotate (-k) = r := by
  have h0 : 0 ≤ (r.zero : Int) + r.size - k := by omega
  have h1 : (r.zero : Int) + r.size - k < 2 ^ 64 := by omega
  have hz1 := rotate_zero_int α r k h0 h1
  have hsz : (r.rotate k).size = r.size := rfl
  have hNpos : (0 : Int) < (r.size : Int) := by omega
  have hz1lt : ((r.rotate k).zero : Int) < r.size := by
    rw [hz1]; exact Int.emod_lt_of_pos _ hNpos
  have hz1nn : (0 : Int) ≤ ((r.rotate k).zero : Int) := by positivity
  have h0b : 0 ≤ (((r.rotate k).zero : Int)) + ((r.rotate k).size : Nat) - (-k) := by
    rw [hsz]; omega
  have h1b : (((r.rotate k).zero : Int)) + ((r.rotate k).size : Nat) - (-k) < 2 ^ 64 := by
    rw [hsz]; omega
  have hz2 := rotate_zero_int α (r.rotate k) (-k) h0b h1b
  have hfinal : (((r.rotate k).rotate (-k)).zero : Int) = (r.zero : Int) := by
    rw [hz2, hsz, hz1]
    have harr : ((r.zero : Int) + ↑r.size - k) % (↑r.size : Int) + ↑r.size - -k =
        ((r.zero : Int) + ↑r.size - k) % (↑r.size : Int) + ↑r.size + k := by ring
    rw [harr]
    exact emod_shift_cancel _ _ _ hNpos (by omega) (by omega)
  exact ring_ext α _ _ rfl (by exact_mod_cast hfinal)

/-- Witness for C6: a three-element ring rotated by `+2` then `-2`. -/
theorem rotate_rotate_cancel_witness :
    1 ≤ (⟨[10, 20, 30], 0⟩ : basic_ring Nat).size ∧
    (⟨[10, 20, 30], 0⟩ : basic_ring Nat).zero < 3 ∧
    (2 : Int).natAbs ≤ 3 ∧
    ((⟨[10, 20, 30], 0⟩ : basic_ring Nat).rotate 2).rotate (-2) =
      (⟨[10, 20, 30], 0⟩ : basic_ring Nat) :=
  ⟨by decide, by decide, by decide,
   rotate_rotate_cancel Nat ⟨[10, 20, 30], 0⟩ 2 (by decide) (by decide) (by decide)
     (by norm_num [basic_ring.size])⟩

/-- Counterexample for C6 as stated (every integer `k`): on a ring of size 3
with origin 0, `rotate(5)` wraps through `size_t` (since `0 + 3 - 5 < 0`) and
`rotate(-5)` then lands on origin 1, not 0. -/
theorem rotate_rotate_cancel_counterexample :
    ((⟨[0, 1, 2], 0⟩ : basic_ring Nat).rotate 5).rotate (-5) ≠
      (⟨[0, 1, 2], 0⟩ : basic_ring Nat) := by decide

/-- Claim C7 (amended): `rotate(k)` coincides with `rotate(k mod N)` (the
nonnegative residue) for `|k| ≥ N` whenever `k ≤ zero + N`, which covers all
negative `k`; for `k > zero + N` the `size_t` wrap breaks the equivalence
(see the counterexample). Size and count bounds reflect the 32-bit `int`
count parameter. -/
theorem rotate_large_eq_rotate_mod (α : Type) (r : basic_ring α) (k : Int)
    (hpos : 1 ≤ r.size) (hz : r.zero < r.size)
    (hlarge : r.size ≤ k.natAbs) (hle : k ≤ (r.zero : Int) + r.size)
    (habs : k.natAbs ≤ 2 ^ 31) (hsize : r.size ≤ 2 ^ 31) :
    r.rotate k = r.rotate (k % (r.size : Int)) := by
  have hNpos : (0 : Int) < (r.size : Int) := by omega
  have h0 : 0 ≤ (r.zero : Int) + r.size - k := by omega
  have h1 : (r.zero : Int) + r.size - k < 2 ^ 64 := by omega
  have hmod0 : 0 ≤ k % (r.size : Int) := Int.emod_nonneg _ (by omega)
  have hmodlt : k % (r.size : Int) < r.size := Int.emod_lt_of_pos _ hNpos
  have h0b : 0 ≤ (r.zero : Int) + r.size - k % (r.size : Int) := by omega
  have h1b : (r.zero : Int) + r.size - k % (r.size : Int) < 2 ^ 64 := by omega
  have hza := rotate_zero_int α r k h0 h1
  have hzb := rotate_zero_int α r (k % (r.size : Int)) h0b h1b
  have heq : ((r.rotate k).zero : Int) =
      ((r.rotate (k % (r.size : Int))).zero : Int) := by
    rw [hza, hzb]
    conv_lhs => rw [Int.sub_emod]
    conv_rhs => rw [Int.sub_emod, Int.emod_emod_of_dvd _ dvd_rfl]
  exact ring_ext α _ _ rfl (by exact_mod_cast heq)

/-- Witness for C7: size-3 ring, `k = -7` (`|k| = 7 ≥ 3`), equivalent to
rotating by `(-7) mod 3 = 2`. -/
theorem rotate_large_eq_rotate_mod_witness :
    (⟨[10, 20, 30], 0⟩ : basic_ring Nat).size ≤ (-7 : Int).natAbs ∧
    (-7 : Int) ≤ ((⟨[10, 20, 30], 0⟩ : basic_ring Nat).zero : Int) + 3 ∧
    (⟨[10, 20, 30], 0⟩ : basic_ring Nat).rotate (-7) =
      (⟨[10, 20, 30], 0⟩ : basic_ring Nat).rotate ((-7 : Int) % 3) :=
  ⟨by decide, by decide,
   rotate_large_eq_rotate_mod Nat ⟨[10, 20, 30], 0⟩ (-7) (by decide) (by decide)
     (by decide) (by decide) (by norm_num) (by norm_num [basic_ring.size])⟩

/-- Counterexample for C7 as stated: on a size-3 ring with origin 0,
`rotate(5)` (where `|5| ≥ 3`) gives origin 2, while `rotate(5 mod 3) =
rotate(2)` gives origin 1. -/
theorem rotate_large_eq_rotate_mod_counterexample :
    (3 : Nat) ≤ (5 : Int).natAbs ∧
    (⟨[0, 1, 2], 0⟩ : basic_ring Nat).rotate 5 ≠
      (⟨[0, 1, 2], 0⟩ : basic_ring Nat).rotate ((5 : Int) % 3) := by
  exact ⟨by decide, by decide⟩

/-- Slice states with equal components are equal. -/
theorem tsi_ext (a b : TileSliceIndex) (h1 : a.sliceIndex = b.sliceIndex)
    (h2 : a.beginX = b.beginX) (h3 : a.endX = b.endX) : a = b := by
  cases a
  cases b
  cases h1
  cases h2
  cases h3
  rfl

/-- One slice-iterator step commutes past the iteration. -/
theorem sliceIter_succ_comm (tw : Nat) (v : TileSliceIndex) (n : Nat) :
    sliceIter tw v (n + 1) = sliceNext tw (sliceIter tw v n) := by
  induction n generalizing v with
  | zero => rfl
  | succ n ih =>
    show sliceIter tw (sliceNext tw v) (n + 1) = _
    rw [ih]
    rfl

/-- Closed form for the slice iterator after at least one increment: slice
`n + 1` runs from `(n+1) * tileWidth` to `(n+2) * tileWidth` in `uint32`
arithmetic, independently of `offsetX`. -/
theorem sliceIter_closed (tw offsetX n : Nat) :
    sliceIter tw (sliceBegin tw offsetX) (n + 1) =
      ⟨n + 1, ((n + 1) * tw) % 2 ^ 32, ((n + 2) * tw) % 2 ^ 32⟩ := by
  induction n with
  | zero =>
    refine tsi_ext _ _ rfl (by show tw % 2 ^ 32 = 1 * tw % 2 ^ 32; rw [Nat.one_mul]) ?_
    show (tw % 2 ^ 32 + tw) % 2 ^ 32 = (0 + 2) * tw % 2 ^ 32
    rw [Nat.mod_add_mod]
    congr 1
    ring
  | succ n ih =>
    rw [sliceIter_succ_comm, ih]
    refine tsi_ext _ _ rfl rfl ?_
    show (((n + 2) * tw) % 2 ^ 32 + tw) % 2 ^ 32 = ((n + 1 + 2) * tw) % 2 ^ 32
    rw [Nat.mod_add_mod]
    congr 1
    ring

/-- Claim C8 (amended): when `tileWidth > 0` divides the bitmap width `W > 0`
and `offsetX < tileWidth`, iterating `sliced(tileWidth, offsetX, bitmapSize)`
terminates after exactly `W / tileWidth` slices whose `sliceIndex` values are
consecutive from 0, whose first `beginX` is `offsetX`, and whose boundaries
sit at consecutive multiples of `tileWidth`, jointly covering
`[offsetX, W)`. (When `tileWidth ∤ W` the end sentinel `W + W mod tileWidth`
is in general never reached and the loop does not terminate — see the
counterexample; and the first slice has width `tileWidth - offsetX`, not
`tileWidth`.) -/
theorem sliced_covers (tw offsetX W : Nat) (htw : 0 < tw) (hW : 0 < W)
    (hdvd : tw ∣ W) (hoff : offsetX < tw) (hbound : W < 2 ^ 32) :
    sliceTerminates tw offsetX W ∧
    sliceIter tw (sliceBegin tw offsetX) 0 = ⟨0, offsetX, tw⟩ ∧
    (∀ n, 0 < n → n < W / tw →
      sliceIter tw (sliceBegin tw offsetX) n = ⟨n, n * tw, (n + 1) * tw⟩) ∧
    (sliceIter tw (sliceBegin tw offsetX) (W / tw)).beginX =
      offsetForEndX tw W := by
  have htwle : tw ≤ W := Nat.le_of_dvd hW hdvd
  have hq : 0 < W / tw := Nat.div_pos htwle htw
  have hqtw : W / tw * tw = W := Nat.div_mul_cancel hdvd
  have hmod0 : W % tw = 0 := by
    obtain ⟨c, rfl⟩ := hdvd
    exact Nat.mul_mod_right tw c
  have hend : offsetForEndX tw W = W := by
    unfold offsetForEndX
    rw [hmod0, Nat.add_zero, Nat.mod_eq_of_lt hbound]
  have hbeg : sliceIter tw (sliceBegin tw offsetX) 0 = ⟨0, offsetX, tw⟩ := by
    show sliceBegin tw offsetX = _
    unfold sliceBegin
    rw [Nat.mod_eq_of_lt (by omega)]
  have hmid : ∀ n, 0 < n → n < W / tw →
      sliceIter tw (sliceBegin tw offsetX) n = ⟨n, n * tw, (n + 1) * tw⟩ := by
    intro n hn hnq
    obtain ⟨m, rfl⟩ : ∃ m, n = m + 1 := ⟨n - 1, by omega⟩
    rw [sliceIter_closed]
    have h1 : (m + 1) * tw ≤ W := by
      calc (m + 1) * tw ≤ W / tw * tw := Nat.mul_le_mul_right _ (by omega)
      _ = W := hqtw
    have h2 : (m + 2) * tw ≤ W := by
      calc (m + 2) * tw ≤ W / tw * tw := Nat.mul_le_mul_right _ (by omega)
      _ = W := hqtw
    exact tsi_ext _ _ rfl (Nat.mod_eq_of_lt (by omega)) (Nat.mod_eq_of_lt (by omega))
  have hfin : (sliceIter tw (sliceBegin tw offsetX) (W / tw)).beginX =
      offsetForEndX tw W := by
    obtain ⟨m, hm⟩ : ∃ m, W / tw = m + 1 := ⟨W / tw - 1, by omega⟩
    rw [hm, sliceIter_closed]
    show ((m + 1) * tw) % 2 ^ 32 = _
    rw [← hm, hqtw, Nat.mod_eq_of_lt hbound, hend]
  exact ⟨⟨W / tw, hfin⟩, hbeg, hmid, hfin⟩

/-- Witness for C8: tile width 8, offset 2, bitmap width 16 — two slices. -/
theorem sliced_covers_witness :
    (0 < 8 ∧ 0 < 16 ∧ (8 : Nat) ∣ 16 ∧ 2 < 8 ∧ 16 < 2 ^ 32) ∧
    sliceTerminates 8 2 16 ∧
    sliceIter 8 (sliceBegin 8 2) 0 = ⟨0, 2, 8⟩ ∧
    sliceIter 8 (sliceBegin 8 2) 1 = ⟨1, 8, 16⟩ ∧
    (sliceIter 8 (sliceBegin 8 2) (16 / 8)).beginX = offsetForEndX 8 16 :=
  ⟨⟨by decide, by decide, by decide, by decide, by norm_num⟩,
   (sliced_covers 8 2 16 (by decide) (by decide) (by decide) (by decide)
     (by norm_num)).1,
   (sliced_covers 8 2 16 (by decide) (by decide) (by decide) (by decide)
     (by norm_num)).2.1,
   (sliced_covers 8 2 16 (by decide) (by decide) (by decide) (by decide)
     (by norm_num)).2.2.1 1 (by decide) (by norm_num),
   (sliced_covers 8 2 16 (by decide) (by decide) (by decide) (by decide)
     (by norm_num)).2.2.2⟩

/-- Counterexample for C8 as stated: with tile width 8 and bitmap width 10 the
end sentinel is `10 + 10 mod 8 = 12`, but the iterator's `beginX` values are
`0, 8, 16, 24, ...` (mod `2^32`), none of which ever equals 12 — the
iteration does not terminate. -/
theorem sliced_nonterminating_counterexample : ¬ sliceTerminates 8 0 10 := by
  rintro ⟨n, hn⟩
  have hend : offsetForEndX 8 10 = 12 := by norm_num [offsetForEndX]
  rw [hend] at hn
  match n with
  | 0 => exact absurd hn (by decide)
  | Nat.succ m =>
    rw [sliceIter_closed] at hn
    have hsplit : (2 : Nat) ^ 32 = 8 * 2 ^ 29 := by norm_num
    have h8 : ((m + 1) * 8) % 2 ^ 32 = 8 * ((m + 1) % 2 ^ 29) := by
      rw [hsplit, Nat.mul_comm (m + 1) 8, Nat.mul_mod_mul_left]
    have hx : (8 : Nat) * ((m + 1) % 2 ^ 29) = 12 := by
      rw [← h8]
      exact hn
    omega

/-- Claim C9 (amended): `setDirectMapping` and `directMapped` with
`index ≥ directMappingCount` are rejected by the `Require` precondition
check; `tileLocation(i)`, by contrast, performs no bounds check at all: the
source reads `_tileLocations[index]` unconditionally, so the call never fails
even for `i ≥ capacity`. -/
theorem oob_precondition (M : Type) [Inhabited M] (p : AtlasProperties)
    (idx : Nat) (hreq : ctorRequire p = true)
    (hidx : p.directMappingCount ≤ idx) :
    (∀ d, (mkTextureAtlas M p).setDirectMapping idx d =
      .error .indexOutOfRange) ∧
    (mkTextureAtlas M p).directMapped idx = .error .indexOutOfRange ∧
    (∀ j, ((mkTextureAtlas M p).tileLocationE j).isOk = true) := by
  have hlen : (mkTextureAtlas M p).directMapping.length = p.directMappingCount := by
    simp [mkTextureAtlas, List.length_replicate]
  refine ⟨?_, ?_, fun j => rfl⟩
  · intro d
    unfold TextureAtlas.setDirectMapping
    rw [if_neg (by omega)]
  · unfold TextureAtlas.directMapped
    rw [dif_neg (by omega)]

/-- Witness for C9 at the scenario-6 atlas, index 4 (the direct-mapped zone
is `[0, 4)`). -/
theorem oob_precondition_witness :
    ctorRequire props6040 = true ∧
    props6040.directMappingCount ≤ 4 ∧
    (mkTextureAtlas Unit props6040).setDirectMapping 4 ⟨[], .red, ⟨0, 0⟩, ()⟩ =
      .error .indexOutOfRange ∧
    (mkTextureAtlas Unit props6040).directMapped 4 = .error .indexOutOfRange ∧
    ((mkTextureAtlas Unit props6040).tileLocationE 200).isOk = true :=
  ⟨by decide, by decide,
   (oob_precondition Unit props6040 4 (by decide) (by decide)).1 ⟨[], .red, ⟨0, 0⟩, ()⟩,
   (oob_precondition Unit props6040 4 (by decide) (by decide)).2.1,
   (oob_precondition Unit props6040 4 (by decide) (by decide)).2.2 200⟩

/-- Counterexample for C9 as stated: `tileLocation` at `i = capacity` is not
rejected — it succeeds (with an out-of-range read in the source). -/
theorem tileLocation_unchecked_counterexample :
    atlasU.capacity = 4 ∧ (atlasU.tileLocationE 4).isOk = true :=
  ⟨by decide, rfl⟩

/-- The allocator state after a run of `allocate` calls on an enabled
allocator carries the 32-bit running total of the requested counts. -/
theorem allocateAll_state (c0 : Nat) (counts : List Nat) :
    (allocateAll ⟨c0 % 2 ^ 32, true⟩ counts).2 =
      ⟨(c0 + counts.sum) % 2 ^ 32, true⟩ := by
  induction counts generalizing c0 with
  | nil =>
    show (⟨c0 % 2 ^ 32, true⟩ : DirectMappingAllocator) = _
    rw [List.sum_nil, Nat.add_zero]
  | cons c cs ih =>
    show (allocateAll ⟨(c0 % 2 ^ 32 + c) % 2 ^ 32, true⟩ cs).2 = _
    rw [Nat.mod_add_mod, ih (c0 + c), List.sum_cons, Nat.add_assoc]

/-- Mapping `i` returned during a run of `allocate` calls on an enabled
allocator starts at the 32-bit sum of the counts allocated before it and
spans the requested count. -/
theorem allocateAll_getD (c0 : Nat) (counts : List Nat) (i : Nat)
    (hi : i < counts.length) :
    (allocateAll ⟨c0 % 2 ^ 32, true⟩ counts).1.getD i ⟨0, 0⟩ =
      ⟨(c0 + (counts.take i).sum) % 2 ^ 32, counts.getD i 0⟩ := by
  induction counts generalizing c0 i with
  | nil => exact absurd hi (by simp)
  | cons c cs ih =>
    match i with
    | 0 =>
      show (⟨c0 % 2 ^ 32, c⟩ : DirectMapping) = ⟨(c0 + 0) % 2 ^ 32, c⟩
      rw [Nat.add_zero]
    | Nat.succ j =>
      have hj : j < cs.length := by simpa using hi
      show (allocateAll ⟨(c0 % 2 ^ 32 + c) % 2 ^ 32, true⟩ cs).1.getD j ⟨0, 0⟩ = _
      rw [Nat.mod_add_mod, ih (c0 + c) j hj]
      show (⟨(c0 + c + (cs.take j).sum) % 2 ^ 32, cs.getD j 0⟩ : DirectMapping) =
        ⟨(c0 + (c + (cs.take j).sum)) % 2 ^ 32, cs.getD j 0⟩
      rw [Nat.add_assoc]

/-- Claim C10 (amended): running `allocate` on an enabled allocator starting
from the default state, the `i`-th mapping's `baseIndex` equals the sum of
the previously allocated counts reduced modulo `2^32`
(`currentlyAllocatedCount` is a `uint32` and wraps); its `count` is the
requested count, and the state advances by the count in 32-bit arithmetic.
With `enabled == false`, `allocate` returns an empty mapping (converting to
`false`) and leaves the state unchanged. -/
theorem allocate_spec (counts : List Nat) (i : Nat) (hi : i < counts.length) :
    ((allocateAll ⟨0, true⟩ counts).1.getD i ⟨0, 0⟩ =
      ⟨(counts.take i).sum % 2 ^ 32, counts.getD i 0⟩) ∧
    ((allocateAll ⟨0, true⟩ counts).2.currentlyAllocatedCount =
      counts.sum % 2 ^ 32) ∧
    (∀ a : DirectMappingAllocator, a.enabled = true → ∀ c,
      a.allocate c = (⟨a.currentlyAllocatedCount, c⟩,
        ⟨(a.currentlyAllocatedCount + c) % 2 ^ 32, true⟩)) ∧
    (∀ a : DirectMappingAllocator, a.enabled = false → ∀ c,
      a.allocate c = (⟨0, 0⟩, a) ∧ (a.allocate c).1.toBool = false) := by
  refine ⟨?_, ?_, ?_, ?_⟩
  · have h := allocateAll_getD 0 counts i hi
    rw [Nat.zero_add] at h
    exact h
  · have h := allocateAll_state 0 counts
    rw [Nat.zero_add] at h
    rw [show (⟨0, true⟩ : DirectMappingAllocator) = ⟨0 % 2 ^ 32, true⟩ from rfl, h]
  · rintro ⟨cnt, en⟩ ha c
    cases en with
    | true => rfl
    | false => exact Bool.noConfusion ha
  · rintro ⟨cnt, en⟩ ha c
    cases en with
    | true => exact Bool.noConfusion ha
    | false => exact ⟨rfl, rfl⟩

/-- Witness for C10: three enabled allocations `3, 4, 5` (third mapping
starts at 7) and one disabled allocation. -/
theorem allocate_spec_witness :
    2 < ([3, 4, 5] : List Nat).length ∧
    (allocateAll ⟨0, true⟩ [3, 4, 5]).1.getD 2 ⟨0, 0⟩ =
      ⟨(([3, 4, 5] : List Nat).take 2).sum % 2 ^ 32, ([3, 4, 5] : List Nat).getD 2 0⟩ ∧
    (⟨9, false⟩ : DirectMappingAllocator).allocate 7 = (⟨0, 0⟩, ⟨9, false⟩) :=
  ⟨by decide, (allocate_spec [3, 4, 5] 2 (by decide)).1,
   ((allocate_spec [3, 4, 5] 2 (by decide)).2.2.2 ⟨9, false⟩ rfl 7).1⟩

/-- Counterexample for C10 as stated: after two allocations of `2^31`, the
third mapping's `baseIndex` is `0`, not the unreduced sum `2^32` — the
`uint32` counter wrapped. -/
theorem allocate_sum_counterexample :
    ((allocateAll ⟨0, true⟩ [2 ^ 31, 2 ^ 31, 5]).1.getD 2 ⟨0, 0⟩).baseIndex = 0 ∧
    (([2 ^ 31, 2 ^ 31, 5] : List Nat).take 2).sum = 2 ^ 32 ∧
    (0 : Nat) ≠ 2 ^ 32 := by
  exact ⟨by decide, by decide, by decide⟩

end Contour
